import Mathlib

/-!
Verification development for the clip sequencing and capture orchestration
engine of `src/App.tsx` (a browser app that records selected time ranges of a
video playback surface into one artifact).

The embedding is shallow: the relevant handlers of `App.tsx` are translated
into executable Lean functions over explicit state, and the asynchronous
control flow (the `await`-sequenced orchestration, the interval-driven poll
loop of `playSegment`, the `visibilitychange` listener and the recorder's
`stop` event) is modelled as a deterministic interpreter that records an
event trace.  JavaScript numbers that can be `NaN` (the parsed clip times)
are modelled by an explicit `JSNum` type; all other numeric positions are
rationals.
-/

/-- A clip, as in `src/types`: an opaque id plus a start and end offset in
seconds.  The source field named `end` is a Lean keyword, hence `«end»`. -/
structure Clip where
  id : String
  start : Rat
  «end» : Rat
deriving DecidableEq, Repr

/-- A JavaScript number as produced by `parseTimeToSeconds`: either `NaN`
(malformed time text) or an actual numeric value. -/
inductive JSNum where
  | nan : JSNum
  | num : Rat → JSNum
deriving DecidableEq, Repr

/-- The JavaScript `isNaN` check used on parsed times. -/
def JSNum.isNaN : JSNum → Bool
  | .nan => true
  | .num _ => false

/-- JavaScript `a >= b`: comparisons involving `NaN` are false. -/
def jsGe : JSNum → JSNum → Bool
  | .num a, .num b => decide (b ≤ a)
  | _, _ => false

/-- Numeric value of a `JSNum` on the non-`NaN` path (never reached for
`nan` in `handleAddClip`, which rejects `NaN` inputs first). -/
def JSNum.val : JSNum → Rat
  | .nan => 0
  | .num q => q

/-- Error message of `handleAddClip` for `start >= end`. -/
def endAfterStartMsg : String := "End time must be after start time."

/-- Error message of `handleAddClip` for malformed time text. -/
def invalidTimeMsg : String := "Invalid time format. Please use MM:SS or HH:MM:SS."

/-- Comparator of the clip queue: ascending by `start`.  This is the order
induced by the source comparator `(a, b) => a.start - b.start`. -/
def clipLE (a b : Clip) : Prop := a.start ≤ b.start

instance : DecidableRel clipLE := fun a b => inferInstanceAs (Decidable (a.start ≤ b.start))

instance : IsTotal Clip clipLE := ⟨fun a b => le_total a.start b.start⟩

instance : IsTrans Clip clipLE := ⟨fun _ _ _ h h2 => le_trans h h2⟩

/-- `handleAddClip` from `App.tsx` (lines 55-71), over the parsed times.
Given the current queue, the fresh id (`Date.now().toString()`) and the two
parsed times, it either rejects with a validation error (leaving the queue
unchanged) or appends the new clip and re-sorts.  `Array.prototype.sort`
with a consistent comparator is a stable sort, modelled by Mathlib's stable
`List.insertionSort`. -/
def handleAddClip (clips : List Clip) (newId : String) (s e : JSNum) :
    List Clip × Option String :=
  if jsGe s e then (clips, some endAfterStartMsg)
  else if s.isNaN || e.isNaN then (clips, some invalidTimeMsg)
  else (List.insertionSort clipLE (clips ++ [⟨newId, s.val, e.val⟩]), none)

/-! ### Segment player (`playSegment`, App.tsx lines 111-132)

The promise executor seeks, plays, then polls `getCurrentTime()` on a
100 ms interval.  On the first sample at or past `end` it sets a
single-shot `resolved` flag, clears the interval, pauses, and resolves
after a 200 ms settle delay.  The model takes the sequence of sampled
positions as a function `pos : Nat → Rat` (the value of the k-th poll)
and a fuel bound; the source loop has no timeout, so a run whose fuel is
exhausted before a sample reaches `end` is a non-terminating loop and the
model returns `none`.  The observable behaviour is an event trace. -/

/-- Observable events of the engine: playback-surface commands, poll-loop
timer management, capture lifecycle, watcher (un)registration, progress
reports, and artifact production. -/
inductive Ev where
  | seekEv (t : Rat)
  | playEv
  | startTimerEv (intervalMs : Nat)
  | sampleEv (t : Rat)
  | clearTimerEv
  | pauseEv
  | settleEv (delayMs : Nat)
  | segResolveEv
  | progressEv (i total : Nat) (startT endT : Rat)
  | reqCaptureEv
  | addWatcherEv
  | removeWatcherEv
  | newRecorderEv
  | recStartEv
  | unmuteEv
  | volumeEv (v : Nat)
  | recStopReqEv
  | stopTracksEv (n : Nat)
  | artifactEv
deriving DecidableEq, Repr

/-- The poll interval of the segment player, in milliseconds. -/
def pollIntervalMs : Nat := 100

/-- The settle delay before resolving a segment, in milliseconds. -/
def settleDelayMs : Nat := 200

/-- Index of the first poll (counting from `k`) whose sampled position
reaches `endT`, searching at most `fuel` polls. -/
def firstHitFrom (pos : Nat → Rat) (endT : Rat) : Nat → Nat → Option Nat
  | 0, _ => none
  | fuel + 1, k => if endT ≤ pos k then some k else firstHitFrom pos endT fuel (k + 1)

/-- `playSegment` from `App.tsx`: seek to `startT`, play, start the 100 ms
poll timer, sample until the position reaches `endT`, then clear the timer,
pause, wait the 200 ms settle delay and resolve.  `none` models the
no-timeout loop never resolving within `fuel` polls. -/
def playSegment (pos : Nat → Rat) (startT endT : Rat) (fuel : Nat) :
    Option (List Ev) :=
  match firstHitFrom pos endT fuel 0 with
  | none => none
  | some k =>
    some ([.seekEv startT, .playEv, .startTimerEv pollIntervalMs]
      ++ (List.range (k + 1)).map (fun j => Ev.sampleEv (pos j))
      ++ [.clearTimerEv, .pauseEv, .settleEv settleDelayMs, .segResolveEv])

/-! ### Orchestration (`handleCreateVideo`, App.tsx lines 134-226)

The orchestrator validates its inputs, requests a display-capture stream,
registers the `visibilitychange` watcher, starts a `MediaRecorder`, unmutes
the player, plays every clip in queue order, and stops the recorder; the
recorder's `stop` event finalizes the artifact, and a catch-all converts
any exception into an error message.  The model runs this control flow
deterministically over a `Scenario` describing the environment: whether the
capture request succeeds (and how many tracks the stream has), which step,
if any, throws, whether the tab is hidden between two segments, the
sampled playback positions, and how many non-empty chunks the recorder
delivered.  The `stop` event fires asynchronously; the model runs its
handler when the orchestration body has finished (for a run that hangs in
a never-resolving segment no terminal state is reached and the handler is
not modelled). -/

/-- Value of the `processingStatus` state.  The source stores strings built
with `formatTime` (an external collaborator, `src/utils/time`); the model
keeps the data injected into each template. -/
inductive Status where
  | emptySt
  | actionRequired
  | recordingClip (i total : Nat) (startT endT : Rat)
  | doneSt
deriving DecidableEq, Repr

/-- A thrown JavaScript value, as discriminated by the catch block:
a `DOMException` named `NotAllowedError`, another `DOMException`, an
`Error`, or any other value. -/
inductive Exn where
  | domNotAllowed (msg : String)
  | domOther (msg : String)
  | jsError (msg : String)
  | otherThrown
deriving DecidableEq, Repr

/-- Error message of the early validation return. -/
def addClipFirstMsg : String := "Please add at least one clip."

/-- Initial processing status (the screen-share prompt instruction). -/
def actionRequiredMsg : String :=
  "Action Required: Please select THIS tab in the screen share prompt."

/-- Error message set by the visibility watcher on cancellation. -/
def cancelMsg : String :=
  "Recording stopped: you switched away from the tab. Please stay on this tab during the entire recording process."

/-- Error message for a denied screen-share permission. -/
def permissionDeniedMsg : String :=
  "Permission to share screen was denied. Please try again and grant the necessary permissions."

/-- Leading part of the message for a non-denial `DOMException`. -/
def captureFailMsgHead : String := "Could not start screen capture: "

/-- Leading part of the message for a generic `Error`. -/
def errorMsgHead : String := "An error occurred: "

/-- Fallback message for a non-`Error` thrown value. -/
def unknownErrorMsg : String := "An unknown error occurred during video capture."

/-- The catch block of `handleCreateVideo` (lines 213-222): map the thrown
value to the user-facing error message. -/
def errorMessageFor : Exn → String
  | .domNotAllowed _ => permissionDeniedMsg
  | .domOther m => captureFailMsgHead ++ m
  | .jsError m => errorMsgHead ++ m
  | .otherThrown => unknownErrorMsg

/-- Outcome of the `getDisplayMedia` request: denied by the user (a
`NotAllowedError` `DOMException`), failed otherwise, or a stream with the
given number of tracks. -/
inductive CaptureOutcome where
  | denied (msg : String)
  | failed (msg : String)
  | ok (numTracks : Nat)
deriving DecidableEq, Repr

/-- The side-effecting steps after stream acquisition at which the
environment may throw (`MediaRecorder` construction, `recorder.start()`,
the player calls, and the `seekTo` opening segment `i`). -/
inductive OrchStep where
  | newRecorderStep
  | startRecorderStep
  | unmuteStep
  | volumeStep
  | segmentStep (i : Nat)
deriving DecidableEq, Repr

/-- Environment of one orchestration run. -/
structure Scenario where
  /-- `playerRef.current` is non-null. -/
  playerReady : Bool
  /-- `player.isMuted()` at run start. -/
  muted : Bool
  /-- Result of the `getDisplayMedia` request. -/
  capture : CaptureOutcome
  /-- The step, if any, at which the environment throws. -/
  throwAt : Option (OrchStep × Exn)
  /-- The segment index after whose completion the tab becomes hidden
  (firing the visibility watcher before the next segment starts). -/
  cancelAfterSeg : Option Nat
  /-- `pos i k` is the k-th sampled playback position during segment `i`. -/
  pos : Nat → Nat → Rat
  /-- Poll bound per segment; a segment not reaching `end` within it hangs. -/
  fuel : Nat
  /-- Number of non-empty chunks accumulated when the recorder stops. -/
  chunks : Nat

/-- The exception injected at step `st`, if the scenario throws there. -/
def throwsAt (sc : Scenario) (st : OrchStep) : Option Exn :=
  match sc.throwAt with
  | some (st2, e) => if st2 = st then some e else none
  | none => none

/-- The mutable state visible to the orchestration: the React state fields
it touches plus the local `stream` / `recorder` variables. -/
structure OrchState where
  error : Option String
  isProcessing : Bool
  status : Status
  finishedVideo : Bool
  clips : List Clip
  /-- The `visibilitychange` listener is currently registered. -/
  watcherReg : Bool
  /-- `recorder.state === 'recording'`. -/
  recRecording : Bool
  /-- `recorder.stop()` has been requested (its `stop` event is pending
  or has fired). -/
  stopReq : Bool
  /-- `some n` once `stream` holds a capture stream with `n` tracks. -/
  streamTracks : Option Nat
  /-- Number of times `track.stop()` has been invoked on each track of the
  stream (`getTracks().forEach(track => track.stop())` rounds). -/
  stopRounds : Nat
deriving DecidableEq, Repr

/-- Result of one orchestration run: final state, event trace, and whether
the run hung inside a never-resolving segment. -/
structure OrchResult where
  state : OrchState
  trace : List Ev
  hung : Bool
deriving DecidableEq, Repr

/-- How the clip loop ended. -/
inductive LoopExit where
  | completedLoop
  | threwExn (e : Exn)
  | hungLoop
deriving DecidableEq, Repr

/-- The `visibilitychange` handler (lines 147-159) on a transition to
hidden: stop the recorder if it is recording, stop every stream track,
deregister itself, report the cancellation error, and clear the processing
flag. -/
def visibilityFire (s : OrchState) (tr : List Ev) : OrchState × List Ev :=
  let (s, tr) :=
    if s.recRecording then
      ({ s with recRecording := false, stopReq := true }, tr ++ [Ev.recStopReqEv])
    else (s, tr)
  let (s, tr) :=
    match s.streamTracks with
    | some n => ({ s with stopRounds := s.stopRounds + 1 }, tr ++ [Ev.stopTracksEv n])
    | none => (s, tr)
  let s := { s with watcherReg := false }
  ({ s with error := some cancelMsg, isProcessing := false }, tr ++ [Ev.removeWatcherEv])

/-- The recorder's `stop` handler (lines 180-191): deregister the watcher,
produce the artifact when at least one chunk was accumulated (and report
`Done!`), clear the processing flag, and stop every stream track. -/
def onstopRun (chunks : Nat) (s : OrchState) (tr : List Ev) : OrchState × List Ev :=
  let s := { s with watcherReg := false }
  let (s, tr) :=
    if 0 < chunks then
      ({ s with finishedVideo := true, status := Status.doneSt }, tr ++ [Ev.artifactEv])
    else (s, tr)
  let s := { s with isProcessing := false }
  match s.streamTracks with
  | some n => ({ s with stopRounds := s.stopRounds + 1 }, tr ++ [Ev.stopTracksEv n])
  | none => (s, tr)

/-- The catch block (lines 210-225): deregister the watcher, record the
error message for the thrown value, clear the processing flag.  If a
recorder stop was already requested (the watcher fired earlier), its
pending `stop` event still runs. -/
def catchRun (chunks : Nat) (e : Exn) (s : OrchState) (tr : List Ev) : OrchResult :=
  let s := { s with watcherReg := false }
  let tr := tr ++ [Ev.removeWatcherEv]
  let s := { s with error := some (errorMessageFor e), isProcessing := false }
  if s.stopReq then
    let (s, tr) := onstopRun chunks s tr
    { state := s, trace := tr, hung := false }
  else
    { state := s, trace := tr, hung := false }

/-- After the clip loop (lines 207-209): request a recorder stop if still
recording, then run the pending `stop` event. -/
def finishRun (chunks : Nat) (s : OrchState) (tr : List Ev) : OrchResult :=
  let (s, tr) :=
    if s.recRecording then
      ({ s with recRecording := false, stopReq := true }, tr ++ [Ev.recStopReqEv])
    else (s, tr)
  if s.stopReq then
    let (s, tr) := onstopRun chunks s tr
    { state := s, trace := tr, hung := false }
  else
    { state := s, trace := tr, hung := false }

/-- The clip loop (lines 201-205): for each clip, report progress, then
await `playSegment`; the environment may throw when a segment starts, a
segment may never resolve (hanging the run), and the visibility watcher
may fire in the gap after a segment completes. -/
def runSegs (sc : Scenario) (total : Nat) :
    List Clip → Nat → OrchState → List Ev → OrchState × List Ev × LoopExit
  | [], _, s, tr => (s, tr, .completedLoop)
  | c :: rest, i, s, tr =>
    let s := { s with status := Status.recordingClip (i + 1) total c.start c.«end» }
    let tr := tr ++ [Ev.progressEv (i + 1) total c.start c.«end»]
    match throwsAt sc (.segmentStep i) with
    | some e => (s, tr, .threwExn e)
    | none =>
      match playSegment (sc.pos i) c.start c.«end» sc.fuel with
      | none => (s, tr ++ [Ev.seekEv c.start, Ev.playEv, Ev.startTimerEv pollIntervalMs],
          .hungLoop)
      | some segTr =>
        let tr := tr ++ segTr
        let (s, tr) :=
          if sc.cancelAfterSeg = some i ∧ s.watcherReg = true then visibilityFire s tr
          else (s, tr)
        runSegs sc total rest (i + 1) s tr

/-- State after the initial assignments of `handleCreateVideo` (error and
artifact cleared, processing started) and before the try block runs. -/
def initRunState (st0 : OrchState) : OrchState :=
  { st0 with error := none, finishedVideo := false, isProcessing := true,
             status := Status.actionRequired, watcherReg := false,
             recRecording := false, stopReq := false,
             streamTracks := none, stopRounds := 0 }

/-- State right before the clip loop on the successful acquisition path:
stream acquired with `n` tracks, watcher registered, recorder recording. -/
def startState (st0 : OrchState) (n : Nat) : OrchState :=
  { initRunState st0 with streamTracks := some n, watcherReg := true,
                          recRecording := true }

/-- State after stream acquisition and watcher registration, before the
recorder has been started. -/
def acqState (st0 : OrchState) (n : Nat) : OrchState :=
  { startState st0 n with recRecording := false }

/-- Trace after the capture request. -/
def trReq : List Ev := [Ev.reqCaptureEv]

/-- Trace after the watcher registration. -/
def trAcq : List Ev := trReq ++ [Ev.addWatcherEv]

/-- Trace after the `MediaRecorder` construction. -/
def trNew : List Ev := trAcq ++ [Ev.newRecorderEv]

/-- Trace after `recorder.start()`. -/
def trRec : List Ev := trNew ++ [Ev.recStartEv]

/-- Trace after the conditional unmute. -/
def trUnmute (sc : Scenario) : List Ev :=
  if sc.muted then trRec ++ [Ev.unmuteEv] else trRec

/-- Trace right before the clip loop on the successful acquisition path. -/
def startTrace (sc : Scenario) : List Ev :=
  trUnmute sc ++ [Ev.volumeEv 100]

/-- `handleCreateVideo` from `App.tsx`: early validation return, then the
try block (capture acquisition, watcher registration, recorder setup,
unmute and volume, the clip loop, the final stop request) with the catch
block converting any thrown value into a terminal error.  The intermediate
states and traces of the try block are factored into the staged
definitions above. -/
def handleCreateVideo (sc : Scenario) (st0 : OrchState) : OrchResult :=
  if st0.clips.length = 0 ∨ sc.playerReady = false then
    { state := { st0 with error := some addClipFirstMsg }, trace := [], hung := false }
  else
    match sc.capture with
    | .denied m => catchRun sc.chunks (.domNotAllowed m) (initRunState st0) trReq
    | .failed m => catchRun sc.chunks (.domOther m) (initRunState st0) trReq
    | .ok n =>
      match throwsAt sc .newRecorderStep with
      | some e => catchRun sc.chunks e (acqState st0 n) trAcq
      | none =>
        match throwsAt sc .startRecorderStep with
        | some e => catchRun sc.chunks e (acqState st0 n) trNew
        | none =>
          match (if sc.muted then throwsAt sc .unmuteStep else none) with
          | some e => catchRun sc.chunks e (startState st0 n) trRec
          | none =>
            match throwsAt sc .volumeStep with
            | some e => catchRun sc.chunks e (startState st0 n) (trUnmute sc)
            | none =>
              match runSegs sc st0.clips.length st0.clips 0 (startState st0 n)
                  (startTrace sc) with
              | (s, tr, .completedLoop) => finishRun sc.chunks s tr
              | (s, tr, .threwExn e) => catchRun sc.chunks e s tr
              | (s, tr, .hungLoop) => { state := s, trace := tr, hung := true }

/-! ### Trace projections and component lemmas -/

/-- The sequencing-relevant events: progress reports, segment starts
(`seekTo`) and segment resolutions. -/
inductive KEv where
  | progK (i total : Nat) (startT endT : Rat)
  | seekK (t : Rat)
  | resolveK
deriving DecidableEq, Repr

/-- Project a trace onto its sequencing-relevant events. -/
def keyOf : Ev → Option KEv
  | .progressEv i t s e => some (.progK i t s e)
  | .seekEv t => some (.seekK t)
  | .segResolveEv => some .resolveK
  | _ => none

/-- The sequencing events the clip loop must produce for a clip list that
starts at loop index `i`: one progress report, one seek and one resolve per
clip, in queue order, never interleaved. -/
def canonicalKeys (total : Nat) : Nat → List Clip → List KEv
  | _, [] => []
  | i, c :: rest =>
    .progK (i + 1) total c.start c.«end» :: .seekK c.start :: .resolveK ::
      canonicalKeys total (i + 1) rest

/-- The watcher-registration-relevant events: the capture request and the
listener registration. -/
inductive WEv where
  | reqW
  | addW
deriving DecidableEq, Repr

/-- Project a trace onto capture-request and watcher-registration events. -/
def wKey : Ev → Option WEv
  | .reqCaptureEv => some .reqW
  | .addWatcherEv => some .addW
  | _ => none

/-- The recorder/watcher/stop-request fields move together: either the
recorder is recording with the watcher registered and no stop requested,
or the watcher already fired (recorder stopped, watcher deregistered,
stop requested). -/
def WatcherInv (s : OrchState) : Prop :=
  (s.recRecording = true ∧ s.watcherReg = true ∧ s.stopReq = false) ∨
  (s.recRecording = false ∧ s.watcherReg = false ∧ s.stopReq = true)

/-- A quiet initial UI state holding the two-clip queue `[(5,10),(20,25)]`. -/
def twoClipState : OrchState :=
  { error := none, isProcessing := false, status := .emptySt,
    finishedVideo := false, clips := [Clip.mk "a" 5 10, Clip.mk "b" 20 25],
    watcherReg := false, recRecording := false, stopReq := false,
    streamTracks := none, stopRounds := 0 }

/-- A scenario where capture succeeds with one track, every sampled
position is already past the segment end, nothing throws, nothing is
cancelled and the recorder accumulates no chunk. -/
def plainScenario : Scenario :=
  { playerReady := true, muted := false, capture := .ok 1, throwAt := none,
    cancelAfterSeg := none, pos := fun _ _ => 100, fuel := 3, chunks := 0 }

/-- The exception raised during orchestration steps 2-5 of a run over
`clips`, when the scenario schedules one at a step the run reaches:
acquisition failures, or the scheduled throw of a reachable step (the
unmute line only runs when the player is muted; segment `i` only when `i`
is within the queue). -/
def raisedExn (sc : Scenario) (clips : List Clip) : Option Exn :=
  match sc.capture with
  | .denied m => some (.domNotAllowed m)
  | .failed m => some (.domOther m)
  | .ok _ =>
    match sc.throwAt with
    | none => none
    | some (.newRecorderStep, e) => some e
    | some (.startRecorderStep, e) => some e
    | some (.unmuteStep, e) => if sc.muted then some e else none
    | some (.volumeStep, e) => some e
    | some (.segmentStep i, e) => if i < clips.length then some e else none

/-- Scenario of C1's counterexample: acquisition succeeds with one track,
the player is muted, and the unmute call throws an `Error`. -/
def throwScenario : Scenario :=
  { plainScenario with muted := true,
                       throwAt := some (.unmuteStep, .jsError "boom") }

/-- Scenario of C2's counterexample: the tab is hidden after segment 1
completes and before segment 2 starts. -/
def cancelScenario : Scenario := { plainScenario with cancelAfterSeg := some 0 }

/-- Elements passed over by `orderedInsert clipLE x` have strictly smaller
`start`, so inserting `x` never crosses an element with `x`'s key: the
filter over any fixed `start` value sees `x` prepended (when it has that
key) and the rest untouched. -/
theorem filter_orderedInsert (q : Rat) (x : Clip) (l : List Clip) :
    (List.orderedInsert clipLE x l).filter (fun c => decide (c.start = q)) =
      if x.start = q then
        x :: l.filter (fun c => decide (c.start = q))
      else l.filter (fun c => decide (c.start = q)) := by
  induction l with
  | nil =>
    simp only [List.orderedInsert, List.filter]
    by_cases hx : x.start = q <;> simp [hx]
  | cons y ys ih =>
    by_cases hxy : clipLE x y
    · rw [List.orderedInsert_of_le _ _ hxy]
      by_cases hx : x.start = q <;> simp [hx, List.filter]
    · have hlt : y.start < x.start := lt_of_not_le hxy
      simp only [List.orderedInsert, if_neg hxy]
      by_cases hy : y.start = q
      · have hx : ¬ x.start = q := by
          intro hx
          rw [hy, hx] at hlt
          exact lt_irrefl q hlt
        simp [List.filter, hy, hx, ih]
      · by_cases hx : x.start = q <;> simp [List.filter, hy, hx, ih]

/-- Stability of the queue sort: for every `start` value, sorting preserves
the relative order (and multiplicity) of the clips carrying that value. -/
theorem filter_insertionSort (q : Rat) (l : List Clip) :
    (List.insertionSort clipLE l).filter (fun c => decide (c.start = q)) =
      l.filter (fun c => decide (c.start = q)) := by
  induction l with
  | nil => rfl
  | cons x xs ih =>
    simp only [List.insertionSort, filter_orderedInsert, ih]
    by_cases hx : x.start = q <;> simp [List.filter, hx]

/-- C7: for every pair of parsed times with numeric `start < end`, inserting
the resulting clip is accepted and leaves the clip queue sorted ascending by
`start`, with ties among equal `start` values broken by insertion order
(for every `start` value, the filtered subsequence equals that of the old
queue with the new clip appended). -/
theorem addClip_sorted_stable (clips : List Clip) (newId : String) (a b : Rat)
    (hab : a < b) :
    (handleAddClip clips newId (.num a) (.num b)).2 = none ∧
    List.Sorted clipLE (handleAddClip clips newId (.num a) (.num b)).1 ∧
    ∀ q : Rat,
      (handleAddClip clips newId (.num a) (.num b)).1.filter
          (fun c => decide (c.start = q)) =
        (clips ++ [Clip.mk newId a b]).filter (fun c => decide (c.start = q)) := by
  have hge : jsGe (.num a) (.num b) = false := by
    simp [jsGe, not_le_of_lt hab]
  have hnan : (JSNum.num a).isNaN || (JSNum.num b).isNaN = false := by
    simp [JSNum.isNaN]
  refine ⟨?_, ?_, ?_⟩
  · simp [handleAddClip, hge, JSNum.isNaN]
  · simp only [handleAddClip, hge, JSNum.isNaN, Bool.or_self, Bool.false_eq_true,
      if_false, ite_false]
    exact List.sorted_insertionSort clipLE _
  · intro q
    simp only [handleAddClip, hge, JSNum.isNaN, Bool.or_self, Bool.false_eq_true,
      if_false, ite_false]
    exact filter_insertionSort q _

/-- Witness for C7 at a concrete input: inserting `(1, 2)` into a queue
holding `(3, 4)` is accepted, sorted, and stable at start value `1`. -/
theorem addClip_sorted_stable_witness :
    (handleAddClip [Clip.mk "0" 3 4] "1" (.num 1) (.num 2)).2 = none ∧
    List.Sorted clipLE (handleAddClip [Clip.mk "0" 3 4] "1" (.num 1) (.num 2)).1 ∧
    (handleAddClip [Clip.mk "0" 3 4] "1" (.num 1) (.num 2)).1.filter
        (fun c => decide (c.start = 1)) =
      ([Clip.mk "0" 3 4] ++ [Clip.mk "1" 1 2]).filter (fun c => decide (c.start = 1)) := by
  have h := addClip_sorted_stable [Clip.mk "0" 3 4] "1" 1 2 (by norm_num)
  exact ⟨h.1, h.2.1, h.2.2 1⟩

/-- C8: for every input where a parsed time is `NaN` or `start >= end`
(JavaScript semantics: comparisons with `NaN` are false, so such inputs fall
through to the `isNaN` check), the insertion is rejected with a validation
error and the queue is unchanged. -/
theorem addClip_rejects_invalid (clips : List Clip) (newId : String) (s e : JSNum)
    (h : s.isNaN = true ∨ e.isNaN = true ∨ jsGe s e = true) :
    (handleAddClip clips newId s e).1 = clips ∧
    (handleAddClip clips newId s e).2.isSome = true := by
  by_cases hge : jsGe s e = true
  · simp [handleAddClip, hge]
  · have hge2 : jsGe s e = false := by simpa using hge
    have hnan : (s.isNaN || e.isNaN) = true := by
      rcases h with h1 | h2 | h3
      · simp [h1]
      · simp [h2]
      · exact absurd h3 hge
    simp [handleAddClip, hge2, hnan]

/-- Witness for C8 at a concrete input: `start = NaN` is rejected and the
queue `[(3, 4)]` is unchanged. -/
theorem addClip_rejects_invalid_witness :
    (handleAddClip [Clip.mk "0" 3 4] "1" .nan (.num 2)).1 = [Clip.mk "0" 3 4] ∧
    (handleAddClip [Clip.mk "0" 3 4] "1" .nan (.num 2)).2.isSome = true :=
  addClip_rejects_invalid [Clip.mk "0" 3 4] "1" .nan (.num 2) (Or.inl rfl)

/-- The hit index found by `firstHitFrom` is at least the starting index,
its sample reaches `endT`, and every earlier polled sample is below it. -/
theorem firstHitFrom_spec (pos : Nat → Rat) (endT : Rat) :
    ∀ fuel k0 k, firstHitFrom pos endT fuel k0 = some k →
      k0 ≤ k ∧ endT ≤ pos k ∧ ∀ j, k0 ≤ j → j < k → pos j < endT := by
  intro fuel
  induction fuel with
  | zero => intro k0 k h; simp [firstHitFrom] at h
  | succ n ih =>
    intro k0 k h
    simp only [firstHitFrom] at h
    by_cases hk : endT ≤ pos k0
    · rw [if_pos hk] at h
      cases h
      exact ⟨le_refl _, hk, fun j h1 h2 => absurd (lt_of_le_of_lt h1 h2) (lt_irrefl _)⟩
    · rw [if_neg hk] at h
      obtain ⟨h1, h2, h3⟩ := ih (k0 + 1) k h
      refine ⟨le_trans (Nat.le_succ k0) h1, h2, ?_⟩
      intro j hj1 hj2
      rcases Nat.eq_or_lt_of_le hj1 with rfl | hlt
      · exact lt_of_not_le hk
      · exact h3 j hlt hj2

/-- C4: a resolving run of `playSegment` first seeks to `start` and plays,
starts the 100 ms poll timer, samples until the first position at or past
`end` (every earlier sample is strictly below `end`), then clears the
timer, pauses, waits the 200 ms settle delay and resolves; in particular
the resolve event is strictly after the pause event and after a sample
`>= end`.  The monotonicity of the surface's position is the claim's
hypothesis on the surface. -/
theorem playSegment_resolve_order (pos : Nat → Rat) (a b : Rat) (fuel : Nat)
    (tr : List Ev) (hmono : ∀ i j, i ≤ j → pos i ≤ pos j)
    (hres : playSegment pos a b fuel = some tr) :
    ∃ k, b ≤ pos k ∧ (∀ j, j < k → pos j < b) ∧
      tr = [.seekEv a, .playEv, .startTimerEv 100]
        ++ (List.range (k + 1)).map (fun j => Ev.sampleEv (pos j))
        ++ [.clearTimerEv, .pauseEv, .settleEv 200, .segResolveEv] ∧
      ∃ l, tr = l ++ [.pauseEv, .settleEv 200, .segResolveEv] ∧
        Ev.sampleEv (pos k) ∈ l := by
  unfold playSegment at hres
  cases hfh : firstHitFrom pos b fuel 0 with
  | none => rw [hfh] at hres; exact absurd hres (by simp)
  | some k =>
    rw [hfh] at hres
    have htr : tr = [.seekEv a, .playEv, .startTimerEv 100]
        ++ (List.range (k + 1)).map (fun j => Ev.sampleEv (pos j))
        ++ [.clearTimerEv, .pauseEv, .settleEv 200, .segResolveEv] := by
      simpa [pollIntervalMs, settleDelayMs] using hres.symm
    obtain ⟨_, hk, hbelow⟩ := firstHitFrom_spec pos b fuel 0 k hfh
    refine ⟨k, hk, fun j hj => hbelow j (Nat.zero_le j) hj, htr, ?_⟩
    refine ⟨[.seekEv a, .playEv, .startTimerEv 100]
      ++ (List.range (k + 1)).map (fun j => Ev.sampleEv (pos j))
      ++ [.clearTimerEv], ?_, ?_⟩
    · rw [htr]
      simp
    · apply List.mem_append_left
      apply List.mem_append_right
      exact List.mem_map_of_mem _ (List.mem_range.mpr (Nat.lt_succ_self k))

/-- Witness for C4: a surface at constant position `1` with `end = 1`
resolves on the first sample. -/
theorem playSegment_resolve_order_witness :
    ∃ k, (1 : Rat) ≤ 1 ∧ (∀ j, j < k → (1 : Rat) < 1) ∧
      [Ev.seekEv 0, Ev.playEv, Ev.startTimerEv 100, Ev.sampleEv 1,
        Ev.clearTimerEv, Ev.pauseEv, Ev.settleEv 200, Ev.segResolveEv]
        = [.seekEv 0, .playEv, .startTimerEv 100]
          ++ (List.range (k + 1)).map (fun _ => Ev.sampleEv 1)
          ++ [.clearTimerEv, .pauseEv, .settleEv 200, .segResolveEv] ∧
      ∃ l, [Ev.seekEv 0, Ev.playEv, Ev.startTimerEv 100, Ev.sampleEv 1,
          Ev.clearTimerEv, Ev.pauseEv, Ev.settleEv 200, Ev.segResolveEv]
          = l ++ [.pauseEv, .settleEv 200, .segResolveEv] ∧
        Ev.sampleEv 1 ∈ l :=
  playSegment_resolve_order (fun _ => (1 : Rat)) 0 1 5
    [Ev.seekEv 0, Ev.playEv, Ev.startTimerEv 100, Ev.sampleEv 1,
      Ev.clearTimerEv, Ev.pauseEv, Ev.settleEv 200, Ev.segResolveEv]
    (fun _ _ _ => le_refl 1) (by decide)

/-- C9: every terminating run of the segment player's poll loop clears its
interval timer exactly once.  The source's only terminating path is the
success path (the `resolved` guard only re-clears if the interval fired
after `clearInterval`, which cannot happen), and the loop has no other
exit; a non-terminating run is modelled by `playSegment = none` and is not
a path on which the loop ends. -/
theorem playSegment_clears_timer_once (pos : Nat → Rat) (a b : Rat) (fuel : Nat)
    (tr : List Ev) (hres : playSegment pos a b fuel = some tr) :
    tr.count Ev.clearTimerEv = 1 := by
  unfold playSegment at hres
  cases hfh : firstHitFrom pos b fuel 0 with
  | none => rw [hfh] at hres; exact absurd hres (by simp)
  | some k =>
    rw [hfh] at hres
    have htr : tr = [.seekEv a, .playEv, .startTimerEv 100]
        ++ (List.range (k + 1)).map (fun j => Ev.sampleEv (pos j))
        ++ [.clearTimerEv, .pauseEv, .settleEv 200, .segResolveEv] := by
      simpa [pollIntervalMs, settleDelayMs] using hres.symm
    rw [htr, List.count_append, List.count_append]
    have hsampled : ((List.range (k + 1)).map
        (fun j => Ev.sampleEv (pos j))).count Ev.clearTimerEv = 0 := by
      rw [List.count_eq_zero]
      intro hmem
      obtain ⟨j, _, hj⟩ := List.mem_map.mp hmem
      exact absurd hj (by simp)
    rw [hsampled]
    simp [List.count_cons, List.count_nil]

/-- Witness for C9: the concrete resolving run above clears the timer
exactly once. -/
theorem playSegment_clears_timer_once_witness :
    [Ev.seekEv 0, Ev.playEv, Ev.startTimerEv 100, Ev.sampleEv 1,
      Ev.clearTimerEv, Ev.pauseEv, Ev.settleEv 200, Ev.segResolveEv].count
        Ev.clearTimerEv = 1 :=
  playSegment_clears_timer_once (fun _ => (1 : Rat)) 0 1 5
    [Ev.seekEv 0, Ev.playEv, Ev.startTimerEv 100, Ev.sampleEv 1,
      Ev.clearTimerEv, Ev.pauseEv, Ev.settleEv 200, Ev.segResolveEv]
    (by decide)

/-- The visibility handler only appends recorder/track/listener events:
no sequencing event and no registration event. -/
theorem visibilityFire_trace (s : OrchState) (tr : List Ev) :
    ∃ ex, (visibilityFire s tr).2 = tr ++ ex ∧
      ex.filterMap keyOf = [] ∧ ex.filterMap wKey = [] := by
  cases hr : s.recRecording <;> cases hst : s.streamTracks <;>
    simp [visibilityFire, hr, hst, keyOf, wKey]

/-- The `stop` handler only appends artifact/track events. -/
theorem onstopRun_trace (ch : Nat) (s : OrchState) (tr : List Ev) :
    ∃ ex, (onstopRun ch s tr).2 = tr ++ ex ∧
      ex.filterMap keyOf = [] ∧ ex.filterMap wKey = [] := by
  rcases Nat.eq_zero_or_pos ch with hch | hch <;>
    cases hst : s.streamTracks <;>
      simp [onstopRun, hch, hst, keyOf, wKey, Nat.not_lt_of_le, Nat.le_of_eq]

/-- The catch block only appends listener/artifact/track events. -/
theorem catchRun_trace (ch : Nat) (e : Exn) (s : OrchState) (tr : List Ev) :
    ∃ ex, (catchRun ch e s tr).trace = tr ++ ex ∧
      ex.filterMap keyOf = [] ∧ ex.filterMap wKey = [] := by
  unfold catchRun
  by_cases hq : s.stopReq = true
  · obtain ⟨ex, hex, hk, hw⟩ := onstopRun_trace ch
      { s with watcherReg := false, error := some (errorMessageFor e),
               isProcessing := false } (tr ++ [Ev.removeWatcherEv])
    refine ⟨[Ev.removeWatcherEv] ++ ex, ?_, ?_, ?_⟩ <;>
      simp_all [keyOf, wKey, hq]
  · refine ⟨[Ev.removeWatcherEv], ?_, ?_, ?_⟩ <;> simp_all [keyOf, wKey]

/-- The post-loop finalization only appends recorder/artifact/track
events. -/
theorem finishRun_trace (ch : Nat) (s : OrchState) (tr : List Ev) :
    ∃ ex, (finishRun ch s tr).trace = tr ++ ex ∧
      ex.filterMap keyOf = [] ∧ ex.filterMap wKey = [] := by
  unfold finishRun
  by_cases hr : s.recRecording = true
  · obtain ⟨ex, hex, hk, hw⟩ := onstopRun_trace ch
      { s with recRecording := false, stopReq := true } (tr ++ [Ev.recStopReqEv])
    refine ⟨[Ev.recStopReqEv] ++ ex, ?_, ?_, ?_⟩ <;> simp_all [keyOf, wKey]
  · by_cases hq : s.stopReq = true
    · obtain ⟨ex, hex, hk, hw⟩ := onstopRun_trace ch s tr
      refine ⟨ex, ?_, hk, hw⟩ <;> simp_all
    · refine ⟨[], ?_, ?_, ?_⟩ <;> simp_all

/-- Sequencing events of a resolving segment: exactly one seek (to the
segment's start) followed by exactly one resolve. -/
theorem playSegment_keys (pos : Nat → Rat) (a b : Rat) (fuel : Nat)
    (tr : List Ev) (h : playSegment pos a b fuel = some tr) :
    tr.filterMap keyOf = [KEv.seekK a, KEv.resolveK] := by
  unfold playSegment at h
  cases hfh : firstHitFrom pos b fuel 0 with
  | none => rw [hfh] at h; exact absurd h (by simp)
  | some k =>
    rw [hfh] at h
    have htr : tr = [.seekEv a, .playEv, .startTimerEv 100]
        ++ (List.range (k + 1)).map (fun j => Ev.sampleEv (pos j))
        ++ [.clearTimerEv, .pauseEv, .settleEv 200, .segResolveEv] := by
      simpa [pollIntervalMs, settleDelayMs] using h.symm
    rw [htr]
    simp [List.filterMap_append, List.filterMap_map, keyOf, Function.comp]

/-- State effect of the catch block when no recorder stop is pending: the
watcher is deregistered, the error message is recorded, processing ends,
and no track is stopped. -/
theorem catchRun_no_stop (ch : Nat) (e : Exn) (s : OrchState) (tr : List Ev)
    (h : s.stopReq = false) :
    (catchRun ch e s tr).state.error = some (errorMessageFor e) ∧
    (catchRun ch e s tr).state.isProcessing = false ∧
    (catchRun ch e s tr).state.watcherReg = false ∧
    (catchRun ch e s tr).state.stopRounds = s.stopRounds ∧
    (catchRun ch e s tr).state.streamTracks = s.streamTracks ∧
    (catchRun ch e s tr).hung = false := by
  simp [catchRun, h]

/-- State effect of the visibility handler while recording with a live
stream: recorder stopped, one track-stop round, watcher deregistered,
cancellation error reported, processing ended. -/
theorem visibilityFire_state (s : OrchState) (tr : List Ev) (n : Nat)
    (hrec : s.recRecording = true) (hstream : s.streamTracks = some n) :
    (visibilityFire s tr).1.error = some cancelMsg ∧
    (visibilityFire s tr).1.isProcessing = false ∧
    (visibilityFire s tr).1.watcherReg = false ∧
    (visibilityFire s tr).1.recRecording = false ∧
    (visibilityFire s tr).1.stopReq = true ∧
    (visibilityFire s tr).1.streamTracks = some n ∧
    (visibilityFire s tr).1.stopRounds = s.stopRounds + 1 ∧
    (visibilityFire s tr).1.finishedVideo = s.finishedVideo ∧
    (visibilityFire s tr).1.clips = s.clips := by
  simp [visibilityFire, hrec, hstream]

/-- State effect of the `stop` handler with a live stream: the watcher is
deregistered, the artifact is produced exactly when at least one chunk was
accumulated, processing ends, and one further track-stop round runs. -/
theorem onstopRun_state (ch : Nat) (s : OrchState) (tr : List Ev) (n : Nat)
    (hstream : s.streamTracks = some n) :
    (onstopRun ch s tr).1.error = s.error ∧
    (onstopRun ch s tr).1.isProcessing = false ∧
    (onstopRun ch s tr).1.watcherReg = false ∧
    (onstopRun ch s tr).1.stopRounds = s.stopRounds + 1 ∧
    (onstopRun ch s tr).1.finishedVideo = (if 0 < ch then true else s.finishedVideo) ∧
    (onstopRun ch s tr).1.status = (if 0 < ch then Status.doneSt else s.status) := by
  by_cases hch : 0 < ch <;> simp [onstopRun, hch, hstream]

/-- State effect of the post-loop finalization when the recorder is still
recording (normal completion): stop is requested and the `stop` handler
runs. -/
theorem finishRun_recording (ch : Nat) (s : OrchState) (tr : List Ev) (n : Nat)
    (hrec : s.recRecording = true) (hstream : s.streamTracks = some n) :
    (finishRun ch s tr).state.error = s.error ∧
    (finishRun ch s tr).state.isProcessing = false ∧
    (finishRun ch s tr).state.watcherReg = false ∧
    (finishRun ch s tr).state.stopRounds = s.stopRounds + 1 ∧
    (finishRun ch s tr).state.finishedVideo = (if 0 < ch then true else s.finishedVideo) ∧
    (finishRun ch s tr).state.status = (if 0 < ch then Status.doneSt else s.status) ∧
    (finishRun ch s tr).hung = false := by
  have h := onstopRun_state ch { s with recRecording := false, stopReq := true }
    (tr ++ [Ev.recStopReqEv]) n hstream
  simp only [finishRun, hrec, if_true, ite_true]
  simp_all [finishRun]

/-- State effect of the post-loop finalization after the watcher already
fired (recorder stopped, stop pending): only the `stop` handler runs. -/
theorem finishRun_cancelled (ch : Nat) (s : OrchState) (tr : List Ev) (n : Nat)
    (hrec : s.recRecording = false) (hstop : s.stopReq = true)
    (hstream : s.streamTracks = some n) :
    (finishRun ch s tr).state.error = s.error ∧
    (finishRun ch s tr).state.isProcessing = false ∧
    (finishRun ch s tr).state.watcherReg = false ∧
    (finishRun ch s tr).state.stopRounds = s.stopRounds + 1 ∧
    (finishRun ch s tr).hung = false := by
  have h := onstopRun_state ch s tr n hstream
  simp only [finishRun, hrec, hstop]
  simp_all

/-- The watcher invariant survives structure updates that do not touch the
recorder, watcher or stop-request fields. -/
theorem WatcherInv_status (s : OrchState) (x : Status) :
    WatcherInv { s with status := x } ↔ WatcherInv s := by
  simp [WatcherInv]

/-- The visibility handler preserves the watcher invariant: fired from the
recording configuration it moves to the cancelled configuration, and in
the cancelled configuration it leaves it. -/
theorem visibilityFire_inv (s : OrchState) (tr : List Ev) (h : WatcherInv s) :
    WatcherInv (visibilityFire s tr).1 := by
  rcases h with ⟨h1, h2, h3⟩ | ⟨h1, h2, h3⟩ <;>
    cases hst : s.streamTracks <;>
      simp [visibilityFire, WatcherInv, h1, h2, h3, hst]

/-- The clip loop preserves the watcher invariant on every exit. -/
theorem runSegs_inv (sc : Scenario) (total : Nat) :
    ∀ cl i s tr, WatcherInv s →
      WatcherInv (runSegs sc total cl i s tr).1 := by
  intro cl
  induction cl with
  | nil => intro i s tr h; exact h
  | cons c rest ih =>
    intro i s tr h
    simp only [runSegs]
    cases hta : throwsAt sc (.segmentStep i) with
    | some e => simpa [WatcherInv] using h
    | none =>
      cases hps : playSegment (sc.pos i) c.start c.«end» sc.fuel with
      | none => simpa [WatcherInv] using h
      | some segTr =>
        dsimp only
        by_cases hg : sc.cancelAfterSeg = some i ∧ s.watcherReg = true
        · rw [if_pos hg]
          exact ih (i + 1) _ _
            (visibilityFire_inv _ _ ((WatcherInv_status s _).mpr h))
        · rw [if_neg hg]
          exact ih (i + 1) _ _ ((WatcherInv_status s _).mpr h)

/-- The `stop` handler always leaves the watcher deregistered and the
processing flag cleared. -/
theorem onstopRun_watcher (ch : Nat) (s : OrchState) (tr : List Ev) :
    (onstopRun ch s tr).1.watcherReg = false ∧
    (onstopRun ch s tr).1.isProcessing = false := by
  by_cases hch : 0 < ch <;> cases hst : s.streamTracks <;>
    simp [onstopRun, hch, hst]

/-- The catch block always leaves the watcher deregistered, the processing
flag cleared, and an error recorded; the run returns normally. -/
theorem catchRun_watcher (ch : Nat) (e : Exn) (s : OrchState) (tr : List Ev) :
    (catchRun ch e s tr).state.watcherReg = false ∧
    (catchRun ch e s tr).state.isProcessing = false ∧
    (catchRun ch e s tr).hung = false := by
  by_cases hq : s.stopReq = true
  · have h := onstopRun_watcher ch
      { s with watcherReg := false, error := some (errorMessageFor e),
               isProcessing := false } (tr ++ [Ev.removeWatcherEv])
    simp [hq] at h
    simp [catchRun, hq, h.1, h.2]
  · simp [catchRun, hq]

/-- Under the watcher invariant, finalization always leaves the watcher
deregistered and the processing flag cleared. -/
theorem finishRun_watcher (ch : Nat) (s : OrchState) (tr : List Ev)
    (h : WatcherInv s) :
    (finishRun ch s tr).state.watcherReg = false ∧
    (finishRun ch s tr).state.isProcessing = false ∧
    (finishRun ch s tr).hung = false := by
  rcases h with ⟨h1, h2, h3⟩ | ⟨h1, h2, h3⟩
  · have h := onstopRun_watcher ch
      { s with recRecording := false, stopReq := true } (tr ++ [Ev.recStopReqEv])
    simp [finishRun, h1, h.1, h.2]
  · have h := onstopRun_watcher ch s tr
    simp [finishRun, h1, h3, h.1, h.2]

/-- Sequencing events of a completed clip loop: whatever was in the trace,
followed by exactly the canonical progress/seek/resolve triple of every
clip, in queue order (the watcher firing between segments adds no
sequencing event). -/
theorem runSegs_keys (sc : Scenario) (total : Nat)
    (hth : ∀ j, throwsAt sc (.segmentStep j) = none) :
    ∀ cl i s tr s2 tr2,
      runSegs sc total cl i s tr = (s2, tr2, .completedLoop) →
      tr2.filterMap keyOf = tr.filterMap keyOf ++ canonicalKeys total i cl := by
  intro cl
  induction cl with
  | nil =>
    intro i s tr s2 tr2 h
    have h2 : tr = tr2 := congrArg (fun x => x.2.1) h
    rw [← h2]
    simp [canonicalKeys]
  | cons c rest ih =>
    intro i s tr s2 tr2 h
    simp only [runSegs, hth i] at h
    cases hps : playSegment (sc.pos i) c.start c.«end» sc.fuel with
    | none =>
      rw [hps] at h
      have hx := congrArg (fun x => x.2.2) h
      simp at hx
    | some segTr =>
      rw [hps] at h
      dsimp only at h
      have hkseg := playSegment_keys _ _ _ _ _ hps
      by_cases hg : sc.cancelAfterSeg = some i ∧ s.watcherReg = true
      · rw [if_pos hg] at h
        obtain ⟨ex, hex, hk, -⟩ := visibilityFire_trace
          { s with status := Status.recordingClip (i + 1) total c.start c.«end» }
          (tr ++ [Ev.progressEv (i + 1) total c.start c.«end»] ++ segTr)
        have hih := ih (i + 1) _ _ _ _ h
        rw [hih, hex]
        simp [List.filterMap_append, hkseg, hk, keyOf, canonicalKeys]
      · rw [if_neg hg] at h
        have hih := ih (i + 1) _ _ _ _ h
        rw [hih]
        simp [List.filterMap_append, hkseg, keyOf, canonicalKeys]

/-- A completed clip loop that could not fire the watcher (no cancellation
scheduled, or the watcher already deregistered) only changes the status
field of the state. -/
theorem runSegs_preserve (sc : Scenario) (total : Nat)
    (hth : ∀ j, throwsAt sc (.segmentStep j) = none) :
    ∀ cl i s tr s2 tr2,
      runSegs sc total cl i s tr = (s2, tr2, .completedLoop) →
      sc.cancelAfterSeg = none ∨ s.watcherReg = false →
      s2.error = s.error ∧ s2.isProcessing = s.isProcessing ∧
      s2.finishedVideo = s.finishedVideo ∧ s2.clips = s.clips ∧
      s2.watcherReg = s.watcherReg ∧ s2.recRecording = s.recRecording ∧
      s2.stopReq = s.stopReq ∧ s2.streamTracks = s.streamTracks ∧
      s2.stopRounds = s.stopRounds := by
  intro cl
  induction cl with
  | nil =>
    intro i s tr s2 tr2 h hnc
    have hs : s = s2 := congrArg (fun x => x.1) h
    rw [← hs]
    exact ⟨rfl, rfl, rfl, rfl, rfl, rfl, rfl, rfl, rfl⟩
  | cons c rest ih =>
    intro i s tr s2 tr2 h hnc
    simp only [runSegs, hth i] at h
    cases hps : playSegment (sc.pos i) c.start c.«end» sc.fuel with
    | none =>
      rw [hps] at h
      have hx := congrArg (fun x => x.2.2) h
      simp at hx
    | some segTr =>
      rw [hps] at h
      dsimp only at h
      have hg : ¬ (sc.cancelAfterSeg = some i ∧ s.watcherReg = true) := by
        rcases hnc with hn | hw
        · simp [hn]
        · simp [hw]
      rw [if_neg hg] at h
      have hrec := ih (i + 1) _ _ _ _ h
        (by rcases hnc with hn | hw
            · exact Or.inl hn
            · exact Or.inr hw)
      exact hrec

/-- With no exception scheduled at any segment, the clip loop never exits
with a thrown value. -/
theorem runSegs_no_throw (sc : Scenario) (total : Nat)
    (hth : ∀ j, throwsAt sc (.segmentStep j) = none) :
    ∀ cl i s tr e, (runSegs sc total cl i s tr).2.2 ≠ LoopExit.threwExn e := by
  intro cl
  induction cl with
  | nil => intro i s tr e; simp [runSegs]
  | cons c rest ih =>
    intro i s tr e
    simp only [runSegs, hth i]
    cases hps : playSegment (sc.pos i) c.start c.«end» sc.fuel with
    | none => simp
    | some segTr =>
      dsimp only
      by_cases hg : sc.cancelAfterSeg = some i ∧ s.watcherReg = true
      · rw [if_pos hg]
        exact ih (i + 1) _ _ e
      · rw [if_neg hg]
        exact ih (i + 1) _ _ e

/-- When the environment throws at segment `i` (within range) and no
cancellation is scheduled, a non-hanging clip loop exits with exactly that
exception, having changed nothing but the status field. -/
theorem runSegs_throw (sc : Scenario) (total i : Nat) (e : Exn)
    (hcancel : sc.cancelAfterSeg = none)
    (hth : sc.throwAt = some (.segmentStep i, e)) :
    ∀ cl i0 s tr s2 tr2 ex,
      runSegs sc total cl i0 s tr = (s2, tr2, ex) →
      i0 ≤ i → i < i0 + cl.length → ex ≠ .hungLoop →
      ex = .threwExn e ∧ s2.error = s.error ∧ s2.isProcessing = s.isProcessing ∧
      s2.watcherReg = s.watcherReg ∧ s2.stopReq = s.stopReq ∧
      s2.streamTracks = s.streamTracks ∧ s2.stopRounds = s.stopRounds := by
  intro cl
  induction cl with
  | nil =>
    intro i0 s tr s2 tr2 ex h h1 h2 h3
    simp only [List.length_nil] at h2
    omega
  | cons c rest ih =>
    intro i0 s tr s2 tr2 ex h h1 h2 h3
    by_cases hi : i0 = i
    · subst hi
      have hta : throwsAt sc (.segmentStep i0) = some e := by
        simp [throwsAt, hth]
      simp only [runSegs, hta] at h
      have hex : LoopExit.threwExn e = ex := congrArg (fun x => x.2.2) h
      have hs2 := congrArg (fun x => x.1) h
      dsimp only at hs2
      rw [← hex, ← hs2]
      exact ⟨rfl, rfl, rfl, rfl, rfl, rfl, rfl⟩
    · have hne : OrchStep.segmentStep i ≠ OrchStep.segmentStep i0 := by
        intro hc
        injection hc with hc
        exact hi hc.symm
      have hta : throwsAt sc (.segmentStep i0) = none := by
        simp [throwsAt, hth, hne]
      simp only [runSegs, hta] at h
      cases hps : playSegment (sc.pos i0) c.start c.«end» sc.fuel with
      | none =>
        rw [hps] at h
        have hx : LoopExit.hungLoop = ex := congrArg (fun x => x.2.2) h
        exact absurd hx.symm h3
      | some segTr =>
        rw [hps] at h
        dsimp only at h
        have hg : ¬ (sc.cancelAfterSeg = some i0 ∧ s.watcherReg = true) := by
          simp [hcancel]
        rw [if_neg hg] at h
        have hb1 : i0 + 1 ≤ i := by omega
        have hb2 : i < (i0 + 1) + rest.length := by
          simp only [List.length_cons] at h2
          omega
        have hrec := ih (i0 + 1) _ _ _ _ _ h hb1 hb2 h3
        exact hrec

/-- When the watcher fires after segment `i` (within range) of a loop that
started recording with the watcher registered, a completed loop ends in the
cancelled configuration: cancellation error reported, processing ended,
watcher deregistered, recorder stopped with a stop pending, and exactly one
track-stop round performed. -/
theorem runSegs_cancel (sc : Scenario) (total i n : Nat)
    (hth : ∀ j, throwsAt sc (.segmentStep j) = none)
    (hcancel : sc.cancelAfterSeg = some i) :
    ∀ cl i0 s tr s2 tr2,
      runSegs sc total cl i0 s tr = (s2, tr2, .completedLoop) →
      i0 ≤ i → i < i0 + cl.length →
      s.watcherReg = true → s.recRecording = true →
      s.streamTracks = some n →
      s2.error = some cancelMsg ∧ s2.isProcessing = false ∧
      s2.watcherReg = false ∧ s2.recRecording = false ∧ s2.stopReq = true ∧
      s2.streamTracks = some n ∧ s2.stopRounds = s.stopRounds + 1 ∧
      s2.finishedVideo = s.finishedVideo := by
  intro cl
  induction cl with
  | nil =>
    intro i0 s tr s2 tr2 h h1 h2
    simp only [List.length_nil] at h2
    omega
  | cons c rest ih =>
    intro i0 s tr s2 tr2 h h1 h2 hw hr hst
    simp only [runSegs, hth i0] at h
    cases hps : playSegment (sc.pos i0) c.start c.«end» sc.fuel with
    | none =>
      rw [hps] at h
      have hx := congrArg (fun x => x.2.2) h
      simp at hx
    | some segTr =>
      rw [hps] at h
      dsimp only at h
      by_cases hi : i0 = i
      · subst hi
        have hg : sc.cancelAfterSeg = some i0 ∧ s.watcherReg = true := ⟨hcancel, hw⟩
        rw [if_pos hg] at h
        have hvf := visibilityFire_state
          { s with status := Status.recordingClip (i0 + 1) total c.start c.«end» }
          (tr ++ [Ev.progressEv (i0 + 1) total c.start c.«end»] ++ segTr) n hr hst
        have hpres := runSegs_preserve sc total hth rest (i0 + 1) _ _ _ _ h
          (Or.inr hvf.2.2.1)
        refine ⟨?_, ?_, ?_, ?_, ?_, ?_, ?_, ?_⟩
        · rw [hpres.1, hvf.1]
        · rw [hpres.2.1, hvf.2.1]
        · rw [hpres.2.2.2.2.1, hvf.2.2.1]
        · rw [hpres.2.2.2.2.2.1, hvf.2.2.2.1]
        · rw [hpres.2.2.2.2.2.2.1, hvf.2.2.2.2.1]
        · rw [hpres.2.2.2.2.2.2.2.1, hvf.2.2.2.2.2.1]
        · rw [hpres.2.2.2.2.2.2.2.2, hvf.2.2.2.2.2.2.1]
        · rw [hpres.2.2.1, hvf.2.2.2.2.2.2.2.1]
      · have hg : ¬ (sc.cancelAfterSeg = some i0 ∧ s.watcherReg = true) := by
          rw [hcancel]
          intro hc
          apply hi
          injection hc.1 with hc1
          exact hc1.symm
        rw [if_neg hg] at h
        have hb1 : i0 + 1 ≤ i := by omega
        have hb2 : i < (i0 + 1) + rest.length := by
          simp only [List.length_cons] at h2
          omega
        have hrec := ih (i0 + 1) _ _ _ _ h hb1 hb2 hw hr hst
        exact hrec

/-- No step throws when the scenario schedules no exception. -/
theorem throwsAt_none (sc : Scenario) (hthrow : sc.throwAt = none) (st : OrchStep) :
    throwsAt sc st = none := by
  simp [throwsAt, hthrow]

/-- On the successful acquisition path with no pre-loop exception, the
orchestration reduces to the clip loop started from `startState` and
`startTrace`, followed by finalization, the catch block, or a hung run. -/
theorem handleCreateVideo_ok (sc : Scenario) (st0 : OrchState) (n : Nat)
    (hne : st0.clips.length ≠ 0) (hready : sc.playerReady = true)
    (hcap : sc.capture = .ok n) (hthrow : sc.throwAt = none) :
    handleCreateVideo sc st0 =
      match runSegs sc st0.clips.length st0.clips 0 (startState st0 n) (startTrace sc) with
      | (s, tr, .completedLoop) => finishRun sc.chunks s tr
      | (s, tr, .threwExn e) => catchRun sc.chunks e s tr
      | (s, tr, .hungLoop) => { state := s, trace := tr, hung := true } := by
  have hcond : ¬ (st0.clips.length = 0 ∨ sc.playerReady = false) := by
    simp [hne, hready]
  unfold handleCreateVideo
  rw [if_neg hcond, hcap]
  dsimp only
  rw [throwsAt_none sc hthrow .newRecorderStep]
  dsimp only
  rw [throwsAt_none sc hthrow .startRecorderStep]
  dsimp only
  rw [throwsAt_none sc hthrow .unmuteStep, ite_self]
  dsimp only
  rw [throwsAt_none sc hthrow .volumeStep]

/-- C10: invoked with an empty clip queue or before the playback surface
handle is available, `handleCreateVideo` only sets the validation error:
no capture stream is requested, no segment is played, and the processing
flag, status, artifact reference and clip queue are left untouched. -/
theorem createVideo_rejects_unready (sc : Scenario) (st0 : OrchState)
    (h : st0.clips = [] ∨ sc.playerReady = false) :
    handleCreateVideo sc st0 =
      { state := { st0 with error := some addClipFirstMsg },
        trace := [], hung := false } := by
  have hcond : st0.clips.length = 0 ∨ sc.playerReady = false := by
    rcases h with h | h
    · exact Or.inl (by rw [h]; rfl)
    · exact Or.inr h
  unfold handleCreateVideo
  rw [if_pos hcond]

/-- Witness for C10 at a concrete input: an empty queue is rejected with
the validation error, an empty trace, and an otherwise untouched state. -/
theorem createVideo_rejects_unready_witness :
    handleCreateVideo
      { playerReady := true, muted := false, capture := .ok 1, throwAt := none,
        cancelAfterSeg := none, pos := fun _ _ => 100, fuel := 3, chunks := 0 }
      { error := none, isProcessing := false, status := .emptySt,
        finishedVideo := false, clips := [], watcherReg := false,
        recRecording := false, stopReq := false, streamTracks := none,
        stopRounds := 0 } =
      { state := { error := some addClipFirstMsg, isProcessing := false,
                   status := .emptySt, finishedVideo := false, clips := [],
                   watcherReg := false, recRecording := false, stopReq := false,
                   streamTracks := none, stopRounds := 0 },
        trace := [], hung := false } :=
  createVideo_rejects_unready _ _ (Or.inl rfl)

/-- A resolving segment trace contains no capture-request or registration
event. -/
theorem playSegment_wkeys (pos : Nat → Rat) (a b : Rat) (fuel : Nat)
    (tr : List Ev) (h : playSegment pos a b fuel = some tr) :
    tr.filterMap wKey = [] := by
  unfold playSegment at h
  cases hfh : firstHitFrom pos b fuel 0 with
  | none => rw [hfh] at h; exact absurd h (by simp)
  | some k =>
    rw [hfh] at h
    have htr : tr = [.seekEv a, .playEv, .startTimerEv 100]
        ++ (List.range (k + 1)).map (fun j => Ev.sampleEv (pos j))
        ++ [.clearTimerEv, .pauseEv, .settleEv 200, .segResolveEv] := by
      simpa [pollIntervalMs, settleDelayMs] using h.symm
    rw [htr]
    simp [List.filterMap_append, List.filterMap_map, wKey, Function.comp]

/-- The clip loop appends no capture-request or registration event, on any
exit. -/
theorem runSegs_wkeys (sc : Scenario) (total : Nat) :
    ∀ cl i s tr,
      ((runSegs sc total cl i s tr).2.1).filterMap wKey = tr.filterMap wKey := by
  intro cl
  induction cl with
  | nil => intro i s tr; rfl
  | cons c rest ih =>
    intro i s tr
    simp only [runSegs]
    cases hta : throwsAt sc (.segmentStep i) with
    | some e => simp [wKey]
    | none =>
      cases hps : playSegment (sc.pos i) c.start c.«end» sc.fuel with
      | none => simp [wKey]
      | some segTr =>
        dsimp only
        have hseg := playSegment_wkeys _ _ _ _ _ hps
        by_cases hg : sc.cancelAfterSeg = some i ∧ s.watcherReg = true
        · rw [if_pos hg]
          obtain ⟨ex, hex, -, hwk⟩ := visibilityFire_trace
            { s with status := Status.recordingClip (i + 1) total c.start c.«end» }
            (tr ++ [Ev.progressEv (i + 1) total c.start c.«end»] ++ segTr)
          rw [ih, hex]
          simp [List.filterMap_append, hseg, hwk, wKey]
        · rw [if_neg hg]
          rw [ih]
          simp [List.filterMap_append, hseg, wKey]

/-- The pre-loop trace carries no sequencing event. -/
theorem startTrace_keys (sc : Scenario) :
    (startTrace sc).filterMap keyOf = [] := by
  by_cases hm : sc.muted = true <;>
    simp [startTrace, trUnmute, trRec, trNew, trAcq, trReq, hm, keyOf]

/-- The pre-loop trace carries exactly the capture request followed by the
watcher registration. -/
theorem startTrace_wkeys (sc : Scenario) :
    (startTrace sc).filterMap wKey = [WEv.reqW, WEv.addW] := by
  by_cases hm : sc.muted = true <;>
    simp [startTrace, trUnmute, trRec, trNew, trAcq, trReq, hm, wKey]

/-- C6: over a non-empty sorted clip queue with capture acquired, nothing
thrown, no cancellation and no segment hanging, the orchestration's
sequencing events are exactly one progress report followed by one seek and
one resolve per clip, in ascending-start queue order, with no interleaving
(the next seek only ever follows the previous resolve), and the seek
targets are ascending. -/
theorem createVideo_sequential (sc : Scenario) (st0 : OrchState) (n : Nat)
    (hne : st0.clips.length ≠ 0) (hready : sc.playerReady = true)
    (hcap : sc.capture = .ok n) (hthrow : sc.throwAt = none)
    (hcancel : sc.cancelAfterSeg = none)
    (hsorted : List.Sorted clipLE st0.clips)
    (hterm : (handleCreateVideo sc st0).hung = false) :
    (handleCreateVideo sc st0).trace.filterMap keyOf =
      canonicalKeys st0.clips.length 0 st0.clips ∧
    List.Sorted (fun a b => a ≤ b) (st0.clips.map (fun c => c.start)) := by
  constructor
  · rw [handleCreateVideo_ok sc st0 n hne hready hcap hthrow] at hterm ⊢
    rcases hrs : runSegs sc st0.clips.length st0.clips 0 (startState st0 n)
      (startTrace sc) with ⟨s2, tr2, ex⟩
    cases ex with
    | completedLoop =>
      dsimp only at hterm ⊢
      have hkeys := runSegs_keys sc st0.clips.length
        (fun j => throwsAt_none sc hthrow _) st0.clips 0 _ _ _ _ hrs
      obtain ⟨ex2, hex2, hk2, -⟩ := finishRun_trace sc.chunks s2 tr2
      rw [hex2]
      simp [List.filterMap_append, hkeys, hk2, startTrace_keys]
    | threwExn e =>
      have hx := congrArg (fun x => x.2.2) hrs
      exact absurd hx (runSegs_no_throw sc st0.clips.length
        (fun j => throwsAt_none sc hthrow _) st0.clips 0 _ _ e)
    | hungLoop =>
      try rw [hrs] at hterm
      exact Bool.noConfusion hterm
  · exact List.pairwise_map.mpr hsorted

/-- Witness for C6: the two-clip queue `[(5,10),(20,25)]` at constant
sampled position `100` produces exactly the canonical sequencing events,
in order. -/
theorem createVideo_sequential_witness :
    (handleCreateVideo
      { playerReady := true, muted := false, capture := .ok 1, throwAt := none,
        cancelAfterSeg := none, pos := fun _ _ => 100, fuel := 3, chunks := 1 }
      { error := none, isProcessing := false, status := .emptySt,
        finishedVideo := false, clips := [Clip.mk "a" 5 10, Clip.mk "b" 20 25],
        watcherReg := false, recRecording := false, stopReq := false,
        streamTracks := none, stopRounds := 0 }).trace.filterMap keyOf =
      canonicalKeys 2 0 [Clip.mk "a" 5 10, Clip.mk "b" 20 25] ∧
    List.Sorted (fun a b => a ≤ b)
      ([Clip.mk "a" 5 10, Clip.mk "b" 20 25].map (fun c => c.start)) := by
  have h := createVideo_sequential
    { playerReady := true, muted := false, capture := .ok 1, throwAt := none,
      cancelAfterSeg := none, pos := fun _ _ => 100, fuel := 3, chunks := 1 }
    { error := none, isProcessing := false, status := .emptySt,
      finishedVideo := false, clips := [Clip.mk "a" 5 10, Clip.mk "b" 20 25],
      watcherReg := false, recRecording := false, stopReq := false,
      streamTracks := none, stopRounds := 0 } 1
    (by decide) rfl rfl rfl rfl
    (by simp [clipLE]; norm_num) (by decide)
  exact h

/-- C5 counterexample: in a successful run the capture request is the
first trace event and the watcher registration the second — and that is
the only registration — so the watcher is not registered before the
capture stream is acquired. -/
theorem watcher_after_capture_cex :
    (handleCreateVideo plainScenario twoClipState).trace.get? 0 =
      some Ev.reqCaptureEv ∧
    (handleCreateVideo plainScenario twoClipState).trace.get? 1 =
      some Ev.addWatcherEv ∧
    (handleCreateVideo plainScenario twoClipState).trace.count
      Ev.addWatcherEv = 1 := by
  decide

/-- C5 (amended): the cancellation watcher is registered immediately after
the capture stream is acquired (not before: the only registration event in
any run follows the capture request), and it is deregistered on every
terminal path of the run — success, failure, or cancellation — so it never
outlives the run. -/
theorem watcher_lifecycle (sc : Scenario) (st0 : OrchState)
    (hw0 : st0.watcherReg = false)
    (hterm : (handleCreateVideo sc st0).hung = false) :
    (handleCreateVideo sc st0).state.watcherReg = false ∧
    ((handleCreateVideo sc st0).trace.filterMap wKey = [] ∨
     (handleCreateVideo sc st0).trace.filterMap wKey = [WEv.reqW] ∨
     (handleCreateVideo sc st0).trace.filterMap wKey = [WEv.reqW, WEv.addW]) := by
  by_cases hcond : st0.clips.length = 0 ∨ sc.playerReady = false
  · unfold handleCreateVideo
    rw [if_pos hcond]
    exact ⟨hw0, Or.inl rfl⟩
  · unfold handleCreateVideo at hterm ⊢
    rw [if_neg hcond] at hterm ⊢
    cases hcap : sc.capture with
    | denied m =>
      dsimp only
      refine ⟨(catchRun_watcher _ _ _ _).1, ?_⟩
      obtain ⟨ex, hex, -, hwk⟩ := catchRun_trace sc.chunks (.domNotAllowed m)
        (initRunState st0) trReq
      rw [hex]
      exact Or.inr (Or.inl (by simp [List.filterMap_append, hwk, trReq, wKey]))
    | failed m =>
      dsimp only
      refine ⟨(catchRun_watcher _ _ _ _).1, ?_⟩
      obtain ⟨ex, hex, -, hwk⟩ := catchRun_trace sc.chunks (.domOther m)
        (initRunState st0) trReq
      rw [hex]
      exact Or.inr (Or.inl (by simp [List.filterMap_append, hwk, trReq, wKey]))
    | ok n =>
      dsimp only
      cases ht1 : throwsAt sc .newRecorderStep with
      | some e =>
        dsimp only
        refine ⟨(catchRun_watcher _ _ _ _).1, ?_⟩
        obtain ⟨ex, hex, -, hwk⟩ := catchRun_trace sc.chunks e (acqState st0 n) trAcq
        rw [hex]
        exact Or.inr (Or.inr
          (by simp [List.filterMap_append, hwk, trAcq, trReq, wKey]))
      | none =>
        dsimp only
        cases ht2 : throwsAt sc .startRecorderStep with
        | some e =>
          dsimp only
          refine ⟨(catchRun_watcher _ _ _ _).1, ?_⟩
          obtain ⟨ex, hex, -, hwk⟩ := catchRun_trace sc.chunks e (acqState st0 n) trNew
          rw [hex]
          exact Or.inr (Or.inr
            (by simp [List.filterMap_append, hwk, trNew, trAcq, trReq, wKey]))
        | none =>
          dsimp only
          cases ht3 : (if sc.muted then throwsAt sc .unmuteStep else none) with
          | some e =>
            dsimp only
            refine ⟨(catchRun_watcher _ _ _ _).1, ?_⟩
            obtain ⟨ex, hex, -, hwk⟩ := catchRun_trace sc.chunks e
              (startState st0 n) trRec
            rw [hex]
            exact Or.inr (Or.inr
              (by simp [List.filterMap_append, hwk, trRec, trNew, trAcq, trReq, wKey]))
          | none =>
            dsimp only
            cases ht4 : throwsAt sc .volumeStep with
            | some e =>
              dsimp only
              refine ⟨(catchRun_watcher _ _ _ _).1, ?_⟩
              obtain ⟨ex, hex, -, hwk⟩ := catchRun_trace sc.chunks e
                (startState st0 n) (trUnmute sc)
              rw [hex]
              refine Or.inr (Or.inr ?_)
              by_cases hm : sc.muted = true <;>
                simp [hm, List.filterMap_append, hwk, trUnmute, trRec, trNew,
                  trAcq, trReq, wKey]
            | none =>
              dsimp only
              rw [hcap, ht1, ht2, ht3, ht4] at hterm
              rcases hrs : runSegs sc st0.clips.length st0.clips 0
                (startState st0 n) (startTrace sc) with ⟨s2, tr2, ex⟩
              have hinv0 : WatcherInv (startState st0 n) :=
                Or.inl ⟨rfl, rfl, rfl⟩
              have hinv2 : WatcherInv s2 := by
                have h := runSegs_inv sc st0.clips.length st0.clips 0
                  (startState st0 n) (startTrace sc) hinv0
                rw [hrs] at h
                exact h
              have hwtr : tr2.filterMap wKey = [WEv.reqW, WEv.addW] := by
                have h := runSegs_wkeys sc st0.clips.length st0.clips 0
                  (startState st0 n) (startTrace sc)
                rw [hrs] at h
                rw [h, startTrace_wkeys]
              cases ex with
              | completedLoop =>
                dsimp only
                have hfw := finishRun_watcher sc.chunks s2 tr2 hinv2
                refine ⟨hfw.1, ?_⟩
                obtain ⟨ex2, hex2, -, hwk2⟩ := finishRun_trace sc.chunks s2 tr2
                rw [hex2]
                exact Or.inr (Or.inr
                  (by simp [List.filterMap_append, hwtr, hwk2]))
              | threwExn e =>
                dsimp only
                refine ⟨(catchRun_watcher _ _ _ _).1, ?_⟩
                obtain ⟨ex2, hex2, -, hwk2⟩ := catchRun_trace sc.chunks e s2 tr2
                rw [hex2]
                exact Or.inr (Or.inr
                  (by simp [List.filterMap_append, hwtr, hwk2]))
              | hungLoop =>
                dsimp only at hterm
                rw [hrs] at hterm
                exact Bool.noConfusion hterm

/-- Witness for C5 (amended) at a concrete input: a successful plain run
deregisters the watcher and registers it only after the capture request. -/
theorem watcher_lifecycle_witness :
    (handleCreateVideo plainScenario twoClipState).state.watcherReg = false ∧
    ((handleCreateVideo plainScenario twoClipState).trace.filterMap wKey = [] ∨
     (handleCreateVideo plainScenario twoClipState).trace.filterMap wKey
       = [WEv.reqW] ∨
     (handleCreateVideo plainScenario twoClipState).trace.filterMap wKey
       = [WEv.reqW, WEv.addW]) :=
  watcher_lifecycle plainScenario twoClipState (by decide) (by decide)

/-- C1 counterexample: when unmuting throws after the stream was acquired,
the catch block reports the error and deregisters the watcher, but the
acquired track receives no `stop()` call at all — the claim that every
underlying capture track is stopped on the exception path fails. -/
theorem exception_leaves_tracks_live_cex :
    (handleCreateVideo throwScenario twoClipState).state.error =
      some (errorMsgHead ++ "boom") ∧
    (handleCreateVideo throwScenario twoClipState).state.watcherReg = false ∧
    (handleCreateVideo throwScenario twoClipState).state.streamTracks = some 1 ∧
    (handleCreateVideo throwScenario twoClipState).state.stopRounds = 0 ∧
    (handleCreateVideo throwScenario twoClipState).trace.count
      (Ev.stopTracksEv 1) = 0 := by
  decide

/-- C1 (amended): every exception raised during orchestration steps 2-5
(capture acquisition, recorder setup, unmuting, volume, segment start) is
caught — the run returns normally with an error message reflecting the
underlying cause, the processing flag cleared and the watcher
deregistered — but the underlying capture tracks are NOT stopped on the
exception path: no track-stop round has run when the cancellation watcher
has not fired. -/
theorem createVideo_exception_caught (sc : Scenario) (st0 : OrchState) (e : Exn)
    (hne : st0.clips.length ≠ 0) (hready : sc.playerReady = true)
    (hcancel : sc.cancelAfterSeg = none)
    (hraise : raisedExn sc st0.clips = some e)
    (hterm : (handleCreateVideo sc st0).hung = false) :
    (handleCreateVideo sc st0).state.error = some (errorMessageFor e) ∧
    (handleCreateVideo sc st0).state.isProcessing = false ∧
    (handleCreateVideo sc st0).state.watcherReg = false ∧
    (handleCreateVideo sc st0).state.stopRounds = 0 := by
  have hcond : ¬ (st0.clips.length = 0 ∨ sc.playerReady = false) := by
    simp [hne, hready]
  unfold handleCreateVideo at hterm ⊢
  rw [if_neg hcond] at hterm ⊢
  cases hcap : sc.capture with
  | denied m =>
    simp only [raisedExn, hcap] at hraise
    rw [Option.some.injEq] at hraise
    subst hraise
    dsimp only
    have hc := catchRun_no_stop sc.chunks (.domNotAllowed m) (initRunState st0)
      trReq rfl
    exact ⟨hc.1, hc.2.1, hc.2.2.1, hc.2.2.2.1⟩
  | failed m =>
    simp only [raisedExn, hcap] at hraise
    rw [Option.some.injEq] at hraise
    subst hraise
    dsimp only
    have hc := catchRun_no_stop sc.chunks (.domOther m) (initRunState st0)
      trReq rfl
    exact ⟨hc.1, hc.2.1, hc.2.2.1, hc.2.2.2.1⟩
  | ok n =>
    simp only [raisedExn, hcap] at hraise
    dsimp only
    cases hta : sc.throwAt with
    | none =>
      rw [hta] at hraise
      simp at hraise
    | some pe =>
      rcases pe with ⟨stp, e2⟩
      rw [hta] at hraise
      cases stp with
      | newRecorderStep =>
        dsimp only at hraise
        rw [Option.some.injEq] at hraise
        subst hraise
        have ht1 : throwsAt sc .newRecorderStep = some e2 := by
          simp [throwsAt, hta]
        rw [ht1]
        dsimp only
        have hc := catchRun_no_stop sc.chunks e2 (acqState st0 n) trAcq rfl
        exact ⟨hc.1, hc.2.1, hc.2.2.1, hc.2.2.2.1⟩
      | startRecorderStep =>
        dsimp only at hraise
        rw [Option.some.injEq] at hraise
        subst hraise
        have ht1 : throwsAt sc .newRecorderStep = none := by
          simp [throwsAt, hta]
        have ht2 : throwsAt sc .startRecorderStep = some e2 := by
          simp [throwsAt, hta]
        rw [ht1]
        dsimp only
        rw [ht2]
        dsimp only
        have hc := catchRun_no_stop sc.chunks e2 (acqState st0 n) trNew rfl
        exact ⟨hc.1, hc.2.1, hc.2.2.1, hc.2.2.2.1⟩
      | unmuteStep =>
        dsimp only at hraise
        cases hm : sc.muted with
        | false => rw [hm] at hraise; simp at hraise
        | true =>
          rw [hm] at hraise
          simp only [ite_true, if_true] at hraise
          rw [Option.some.injEq] at hraise
          subst hraise
          have ht1 : throwsAt sc .newRecorderStep = none := by
            simp [throwsAt, hta]
          have ht2 : throwsAt sc .startRecorderStep = none := by
            simp [throwsAt, hta]
          have ht3 : throwsAt sc .unmuteStep = some e2 := by
            simp [throwsAt, hta]
          rw [ht1]
          dsimp only
          rw [ht2]
          dsimp only
          rw [if_pos rfl, ht3]
          dsimp only
          have hc := catchRun_no_stop sc.chunks e2 (startState st0 n) trRec rfl
          exact ⟨hc.1, hc.2.1, hc.2.2.1, hc.2.2.2.1⟩
      | volumeStep =>
        dsimp only at hraise
        rw [Option.some.injEq] at hraise
        subst hraise
        have ht1 : throwsAt sc .newRecorderStep = none := by
          simp [throwsAt, hta]
        have ht2 : throwsAt sc .startRecorderStep = none := by
          simp [throwsAt, hta]
        have ht3 : throwsAt sc .unmuteStep = none := by
          simp [throwsAt, hta]
        have ht4 : throwsAt sc .volumeStep = some e2 := by
          simp [throwsAt, hta]
        rw [ht1]
        dsimp only
        rw [ht2]
        dsimp only
        rw [ht3, ite_self]
        dsimp only
        rw [ht4]
        dsimp only
        have hc := catchRun_no_stop sc.chunks e2 (startState st0 n)
          (trUnmute sc) rfl
        exact ⟨hc.1, hc.2.1, hc.2.2.1, hc.2.2.2.1⟩
      | segmentStep i =>
        dsimp only at hraise
        by_cases hil : i < st0.clips.length
        · rw [if_pos hil] at hraise
          rw [Option.some.injEq] at hraise
          subst hraise
          have ht1 : throwsAt sc .newRecorderStep = none := by
            simp [throwsAt, hta]
          have ht2 : throwsAt sc .startRecorderStep = none := by
            simp [throwsAt, hta]
          have ht3 : throwsAt sc .unmuteStep = none := by
            simp [throwsAt, hta]
          have ht4 : throwsAt sc .volumeStep = none := by
            simp [throwsAt, hta]
          rw [ht1]
          dsimp only
          rw [ht2]
          dsimp only
          rw [ht3, ite_self]
          dsimp only
          rw [ht4]
          dsimp only
          rw [hcap, ht1] at hterm
          dsimp only at hterm
          rw [ht2] at hterm
          dsimp only at hterm
          rw [ht3, ite_self] at hterm
          dsimp only at hterm
          rw [ht4] at hterm
          dsimp only at hterm
          rcases hrs : runSegs sc st0.clips.length st0.clips 0
            (startState st0 n) (startTrace sc) with ⟨s2, tr2, ex⟩
          cases ex with
          | completedLoop =>
            have hth := runSegs_throw sc st0.clips.length i e2 hcancel hta
              st0.clips 0 (startState st0 n) (startTrace sc) s2 tr2
              .completedLoop hrs (Nat.zero_le i) (by omega) (by simp)
            exact absurd hth.1 (by simp)
          | threwExn e3 =>
            dsimp only
            have hth := runSegs_throw sc st0.clips.length i e2 hcancel hta
              st0.clips 0 (startState st0 n) (startTrace sc) s2 tr2
              (.threwExn e3) hrs (Nat.zero_le i) (by omega) (by simp)
            have he3 : e3 = e2 := LoopExit.threwExn.inj hth.1
            subst he3
            have hq : s2.stopReq = false := hth.2.2.2.2.1
            have hc := catchRun_no_stop sc.chunks e3 s2 tr2 hq
            refine ⟨hc.1, hc.2.1, hc.2.2.1, ?_⟩
            rw [hc.2.2.2.1, hth.2.2.2.2.2.2]
            rfl
          | hungLoop =>
            rw [hrs] at hterm
            exact Bool.noConfusion hterm
        · rw [if_neg hil] at hraise
          simp at hraise

/-- Witness for C1 (amended): the unmute-throw run reports the error,
clears processing, deregisters the watcher and performs no track-stop
round. -/
theorem createVideo_exception_caught_witness :
    (handleCreateVideo throwScenario twoClipState).state.error =
      some (errorMessageFor (.jsError "boom")) ∧
    (handleCreateVideo throwScenario twoClipState).state.isProcessing = false ∧
    (handleCreateVideo throwScenario twoClipState).state.watcherReg = false ∧
    (handleCreateVideo throwScenario twoClipState).state.stopRounds = 0 :=
  createVideo_exception_caught throwScenario twoClipState (.jsError "boom")
    (by decide) rfl rfl (by decide) (by decide)

/-- C3 counterexample: a run that finalizes with zero accumulated chunks
terminates with NO error reported (and no artifact): the claimed
`NoContentCaptured` failure does not exist in the code, which deliberately
stays silent on an empty recording. -/
theorem zero_chunks_silent_cex :
    (handleCreateVideo plainScenario twoClipState).hung = false ∧
    (handleCreateVideo plainScenario twoClipState).state.error = none ∧
    (handleCreateVideo plainScenario twoClipState).state.finishedVideo = false ∧
    (handleCreateVideo plainScenario twoClipState).state.isProcessing = false := by
  decide

/-- C3 (amended): on the normal completion path, when the session
finalizes with zero chunks no artifact is produced and no failure is
reported (the run ends silently with the processing flag cleared); with at
least one chunk the artifact is produced and `Done!` is reported. -/
theorem createVideo_finalize (sc : Scenario) (st0 : OrchState) (n : Nat)
    (hne : st0.clips.length ≠ 0) (hready : sc.playerReady = true)
    (hcap : sc.capture = .ok n) (hthrow : sc.throwAt = none)
    (hcancel : sc.cancelAfterSeg = none)
    (hterm : (handleCreateVideo sc st0).hung = false) :
    (handleCreateVideo sc st0).state.isProcessing = false ∧
    (handleCreateVideo sc st0).state.error = none ∧
    (sc.chunks = 0 →
      (handleCreateVideo sc st0).state.finishedVideo = false) ∧
    (0 < sc.chunks →
      (handleCreateVideo sc st0).state.finishedVideo = true ∧
      (handleCreateVideo sc st0).state.status = Status.doneSt) := by
  rw [handleCreateVideo_ok sc st0 n hne hready hcap hthrow] at hterm ⊢
  rcases hrs : runSegs sc st0.clips.length st0.clips 0 (startState st0 n)
    (startTrace sc) with ⟨s2, tr2, ex⟩
  cases ex with
  | completedLoop =>
    dsimp only
    have hpres := runSegs_preserve sc st0.clips.length
      (fun j => throwsAt_none sc hthrow _) st0.clips 0 _ _ _ _ hrs
      (Or.inl hcancel)
    have hrec : s2.recRecording = true := hpres.2.2.2.2.2.1
    have hstream : s2.streamTracks = some n := hpres.2.2.2.2.2.2.2.1
    have hf := finishRun_recording sc.chunks s2 tr2 n hrec hstream
    refine ⟨hf.2.1, ?_, ?_, ?_⟩
    · rw [hf.1, hpres.1]
      rfl
    · intro hch
      rw [hf.2.2.2.2.1]
      simp [hch, hpres.2.2.1, startState, initRunState]
    · intro hch
      constructor
      · rw [hf.2.2.2.2.1]
        simp [hch]
      · rw [hf.2.2.2.2.2.1]
        simp [hch]
  | threwExn e =>
    have hx := congrArg (fun x => x.2.2) hrs
    exact absurd hx (runSegs_no_throw sc st0.clips.length
      (fun j => throwsAt_none sc hthrow _) st0.clips 0 _ _ e)
  | hungLoop =>
    try rw [hrs] at hterm
    exact Bool.noConfusion hterm

/-- Witness for C3 (amended): the one-chunk run produces the artifact and
reports `Done!`; its zero-chunk twin is covered by the counterexample. -/
theorem createVideo_finalize_witness :
    (handleCreateVideo { plainScenario with chunks := 1 } twoClipState).state.isProcessing
      = false ∧
    (handleCreateVideo { plainScenario with chunks := 1 } twoClipState).state.error
      = none ∧
    (({ plainScenario with chunks := 1 } : Scenario).chunks = 0 →
      (handleCreateVideo { plainScenario with chunks := 1 } twoClipState).state.finishedVideo
        = false) ∧
    (0 < ({ plainScenario with chunks := 1 } : Scenario).chunks →
      (handleCreateVideo { plainScenario with chunks := 1 } twoClipState).state.finishedVideo
        = true ∧
      (handleCreateVideo { plainScenario with chunks := 1 } twoClipState).state.status
        = Status.doneSt) :=
  createVideo_finalize { plainScenario with chunks := 1 } twoClipState 1
    (by decide) rfl rfl rfl rfl (by decide)

/-- C2 counterexample: when the watcher fires between segments 1 and 2,
the cancellation error is reported, but segment 2 is still driven on the
surface (its seek to `20` appears in the trace) and the stream's tracks
undergo two stop rounds (watcher and `stop`-event handler), not one — so
"segment i+1 is never invoked" and "all tracks released exactly once" both
fail. -/
theorem cancel_still_plays_next_segment_cex :
    (handleCreateVideo cancelScenario twoClipState).state.error =
      some cancelMsg ∧
    (handleCreateVideo cancelScenario twoClipState).trace.count
      (Ev.seekEv 20) = 1 ∧
    (handleCreateVideo cancelScenario twoClipState).state.stopRounds = 2 := by
  decide

/-- C2 (amended): when the cancellation watcher fires after segment `i`
completes and before segment `i+1` starts while the recorder is recording,
the run terminates with the cancellation error reported, the processing
flag cleared and the watcher deregistered; however every remaining segment
is still driven on the (no-longer-recorded) surface — the trace carries
the full canonical sequencing events of all clips — and each track's
`stop()` is invoked twice (once by the watcher, once by the recorder's
`stop` handler), not exactly once. -/
theorem createVideo_cancel_midrun (sc : Scenario) (st0 : OrchState) (n i : Nat)
    (hne : st0.clips.length ≠ 0) (hready : sc.playerReady = true)
    (hcap : sc.capture = .ok n) (hthrow : sc.throwAt = none)
    (hcancel : sc.cancelAfterSeg = some i) (hi : i < st0.clips.length)
    (hterm : (handleCreateVideo sc st0).hung = false) :
    (handleCreateVideo sc st0).state.error = some cancelMsg ∧
    (handleCreateVideo sc st0).state.isProcessing = false ∧
    (handleCreateVideo sc st0).state.watcherReg = false ∧
    (handleCreateVideo sc st0).state.stopRounds = 2 ∧
    (handleCreateVideo sc st0).trace.filterMap keyOf =
      canonicalKeys st0.clips.length 0 st0.clips := by
  rw [handleCreateVideo_ok sc st0 n hne hready hcap hthrow] at hterm ⊢
  rcases hrs : runSegs sc st0.clips.length st0.clips 0 (startState st0 n)
    (startTrace sc) with ⟨s2, tr2, ex⟩
  cases ex with
  | completedLoop =>
    dsimp only
    have hc := runSegs_cancel sc st0.clips.length i n
      (fun j => throwsAt_none sc hthrow _) hcancel st0.clips 0
      (startState st0 n) (startTrace sc) s2 tr2 hrs (Nat.zero_le i)
      (by omega) rfl rfl rfl
    have hf := finishRun_cancelled sc.chunks s2 tr2 n hc.2.2.2.1 hc.2.2.2.2.1
      hc.2.2.2.2.2.1
    refine ⟨?_, hf.2.1, hf.2.2.1, ?_, ?_⟩
    · rw [hf.1, hc.1]
    · rw [hf.2.2.2.1, hc.2.2.2.2.2.2.1]
      rfl
    · have hkeys := runSegs_keys sc st0.clips.length
        (fun j => throwsAt_none sc hthrow _) st0.clips 0 _ _ _ _ hrs
      obtain ⟨ex2, hex2, hk2, -⟩ := finishRun_trace sc.chunks s2 tr2
      rw [hex2]
      simp [List.filterMap_append, hkeys, hk2, startTrace_keys]
  | threwExn e =>
    have hx := congrArg (fun x => x.2.2) hrs
    exact absurd hx (runSegs_no_throw sc st0.clips.length
      (fun j => throwsAt_none sc hthrow _) st0.clips 0 _ _ e)
  | hungLoop =>
    try rw [hrs] at hterm
    exact Bool.noConfusion hterm

/-- Witness for C2 (amended) at the concrete two-clip cancellation run. -/
theorem createVideo_cancel_midrun_witness :
    (handleCreateVideo cancelScenario twoClipState).state.error =
      some cancelMsg ∧
    (handleCreateVideo cancelScenario twoClipState).state.isProcessing = false ∧
    (handleCreateVideo cancelScenario twoClipState).state.watcherReg = false ∧
    (handleCreateVideo cancelScenario twoClipState).state.stopRounds = 2 ∧
    (handleCreateVideo cancelScenario twoClipState).trace.filterMap keyOf =
      canonicalKeys twoClipState.clips.length 0 twoClipState.clips :=
  createVideo_cancel_midrun cancelScenario twoClipState 1 0
    (by decide) rfl rfl rfl rfl (by decide) (by decide)
